import Mathlib

/-!
Verification development for the tjson repository (src/index.ts): a
schema-guided streaming JSON parser driven by a "sample" value.

Modelling conventions of the shallow embedding:
* The decoded character stream (the `Lex` class's chunked buffer over a
  `TextDecoderStream`) is modelled as a plain `List Char` of the remaining
  unconsumed characters, together with the line/character counters.  JS's
  `""` result for end-of-stream is modelled as `Option Char` being `none`.
  The sticky `eof` flag of the class is equivalent, in the list model, to
  the remaining input being empty.
* JS strings produced by the parser are modelled as Lean `String`
  (sequences of Unicode scalar values).  Lone UTF-16 surrogate halves
  (reachable only through a `\uD800`-style escape) are not representable
  in this model; that corner is marked with a distinct host error.
* All async code in the source is sequential single-threaded consumption;
  promises are modelled away, and errors become an `Except` error channel.
* `JSON.parse` applied to a validated number literal yields the IEEE–754
  double nearest to the literal's mathematical value; the model returns
  the exact mathematical value as a `Rat` (exact for every literal used
  in the claims).
* Mutually recursive parsing loops are defined with an explicit fuel
  counter; running out of fuel is a distinguished error `JErr.outOfFuel`
  that no theorem below ever exercises.
-/

namespace TJ

attribute [local semireducible] Rat.mul Rat.inv Rat.add Rat.sub

/-- Decidable equality for `Except` results (not provided by the core
library), used to evaluate concrete parse outcomes. -/
instance {ε α : Type} [DecidableEq ε] [DecidableEq α] : DecidableEq (Except ε α) := by
  intro a b
  cases a <;> cases b
  case error.error x y =>
    exact if h : x = y then .isTrue (by rw [h]) else .isFalse (by intro he; cases he; exact h rfl)
  case ok.ok x y =>
    exact if h : x = y then .isTrue (by rw [h]) else .isFalse (by intro he; cases he; exact h rfl)
  case error.ok x y => exact .isFalse (by intro he; cases he)
  case ok.error x y => exact .isFalse (by intro he; cases he)

/-- Error channel of the model.  `syn` is a `SyntaxError` built by
`Lex.error` (it carries the line/character position and the message text);
`typeError` is a plain, unpositioned JS `TypeError`; `hostError` stands
for errors raised inside host library calls (`JSON.parse` on a malformed
`\u` escape); `outOfFuel` is the fuel sentinel of the model only. -/
inductive JErr where
  | syn (lineNo charNo : Nat) (msg : String)
  | typeError (msg : String)
  | hostError (msg : String)
  | outOfFuel
deriving DecidableEq, Repr

/-- State of the `Lex` class: remaining unconsumed characters plus the
line/character counters (both start at 1; the counters always denote the
position of the next unconsumed character). -/
structure Lex where
  input : List Char
  lineNo : Nat
  charNo : Nat
deriving DecidableEq, Repr

/-- The `error` method of `Lex`: builds a positioned `SyntaxError` from the
current position (message rendering `(Line:l, character:c): msg` kept
structured). -/
def Lex.error (lex : Lex) (msg : String) : JErr :=
  .syn lex.lineNo lex.charNo msg

/-- The `peek` method: next character without consuming, `none` at EOF. -/
def Lex.peek (lex : Lex) : Option Char :=
  lex.input.head?

/-- The `nextChar` method: consume one character, advancing the line and
character counters exactly as the source does (a newline bumps `lineNo`
and resets `charNo` to 1). -/
def Lex.next (lex : Lex) : Option Char × Lex :=
  match lex.input with
  | [] => (none, lex)
  | c :: rest =>
    if c = '\n' then (some c, ⟨rest, lex.lineNo + 1, 1⟩)
    else (some c, ⟨rest, lex.lineNo, lex.charNo + 1⟩)

/-- The `mustChar` method: as `nextChar` but EOF is a positioned error. -/
def Lex.mustChar (lex : Lex) : Except JErr (Char × Lex) :=
  match lex.next with
  | (none, l) => .error (l.error "Expected a character but got EOF.")
  | (some c, l) => .ok (c, l)

/-- The `isWhite` helper of the source. -/
def isWhite (c : Char) : Bool :=
  c = ' ' || c = '\n' || c = '\t' || c = '\r'

/-- The `isDigit` helper of the source (char code between 48 and 57). -/
def isDigit (c : Char) : Bool :=
  48 ≤ c.toNat && c.toNat ≤ 57

/-- Loop body of the `skip` method, recursing on the remaining input.
A consumed whitespace character updates the counters exactly as
`nextChar` does. -/
def skipAux : List Char → Nat → Nat → Lex
  | [], l, c => ⟨[], l, c⟩
  | ch :: rest, l, c =>
    if isWhite ch then
      if ch = '\n' then skipAux rest (l + 1) 1 else skipAux rest l (c + 1)
    else ⟨ch :: rest, l, c⟩

/-- The `skip` method: consume a maximal run of whitespace. -/
def Lex.skip (lex : Lex) : Lex :=
  skipAux lex.input lex.lineNo lex.charNo

/-- The `skipAndPeek` method. -/
def Lex.skipAndPeek (lex : Lex) : Option Char × Lex :=
  let l := lex.skip
  (l.peek, l)

/-- Render an optional char the way bare string concatenation with a
possibly-empty JS string does (EOF renders as the empty string). -/
def showCh : Option Char → String
  | none => ""
  | some c => String.singleton c

/-- Render an optional char the way the `ch === "" ? "EOF" : ch`
pattern in the source does. -/
def showChEOF : Option Char → String
  | none => "EOF"
  | some c => String.singleton c

/-- Character-by-character loop of the `expect` method (`full` is the
whole expected string, used in the error message). -/
def expectList : List Char → String → Lex → Except JErr Lex
  | [], _, lex => .ok lex
  | e :: es, full, lex =>
    match lex.next with
    | (none, l) => .error (l.error ("Expected " ++ full ++ ", got: EOF"))
    | (some ch, l) =>
      if ch = e then expectList es full l
      else .error (l.error ("Expected " ++ full ++ ", got: " ++ String.singleton ch))

/-- The `expect` method: skip whitespace, then consume `s` verbatim. -/
def Lex.expect (lex : Lex) (s : String) : Except JErr Lex :=
  expectList s.toList s lex.skip

/-- The `skipAndExpect` method: skip whitespace, consume exactly one
character, and require it to be `d`. -/
def Lex.skipAndExpect (lex : Lex) (d : Char) : Except JErr Lex :=
  let l := lex.skip
  match l.next with
  | (none, l') =>
    .error (l'.error ("Expected " ++ String.singleton d ++ " but got: EOF."))
  | (some ch, l') =>
    if ch = d then .ok l'
    else .error (l'.error ("Expected " ++ String.singleton d ++ " but got: "
      ++ String.singleton ch ++ "."))

/-- Hexadecimal digit value (as accepted by `JSON.parse` for `\u`). -/
def hexDigit? (c : Char) : Option Nat :=
  if 48 ≤ c.toNat ∧ c.toNat ≤ 57 then some (c.toNat - 48)
  else if 97 ≤ c.toNat ∧ c.toNat ≤ 102 then some (c.toNat - 87)
  else if 65 ≤ c.toNat ∧ c.toNat ≤ 70 then some (c.toNat - 55)
  else none

/-- The private `unescape` method.  The recognized escapes are exactly the
seven single-character ones below plus `uXXXX`; `/` has no case in the
source and therefore falls to the default error.  The `uXXXX` case is
`JSON.parse` of the four following characters: four hex digits denoting a
Unicode scalar value decode to that code point; four hex digits denoting a
lone surrogate produce a JS string this model cannot represent, and
non-hex characters make the host `JSON.parse` throw — both are modelled as
`hostError`s (no claim exercises either corner). -/
def Lex.unescape (lex : Lex) : Except JErr (Char × Lex) := do
  let (ch, l) ← lex.mustChar
  if ch = '"' then .ok ('"', l)
  else if ch = '\\' then .ok ('\\', l)
  else if ch = 'b' then .ok ('\x08', l)
  else if ch = 'f' then .ok ('\x0C', l)
  else if ch = 'n' then .ok ('\n', l)
  else if ch = 'r' then .ok ('\r', l)
  else if ch = 't' then .ok ('\t', l)
  else if ch = 'u' then do
    let (h1, l1) ← l.mustChar
    let (h2, l2) ← l1.mustChar
    let (h3, l3) ← l2.mustChar
    let (h4, l4) ← l3.mustChar
    match hexDigit? h1, hexDigit? h2, hexDigit? h3, hexDigit? h4 with
    | some a, some b, some c, some d =>
      let v := ((a * 16 + b) * 16 + c) * 16 + d
      if v.isValidChar then .ok (Char.ofNat v, l4)
      else .error (.hostError "lone surrogate escape not representable in the model")
    | _, _, _, _ => .error (.hostError "JSON.parse rejects a non-hex \\u escape")
  else .error (l.error "Invalid escaped character.")

/-- The `booleanLiteral` method. -/
def Lex.booleanLiteral (lex : Lex) : Except JErr (Bool × Lex) :=
  let (ch, l) := lex.skipAndPeek
  if ch = some 't' then do
    let l' ← l.expect "true"
    .ok (true, l')
  else if ch = some 'f' then do
    let l' ← l.expect "false"
    .ok (false, l')
  else .error (l.error ("Expected true or false, got: " ++ showCh ch))

/-- Loop body of the private `readDigits` method.  A digit is never a
newline, so consuming one advances `charNo` only, as `nextChar` does. -/
def readDigitsAux : List Char → Nat → Nat → String → String × Lex
  | [], l, c, acc => (acc, ⟨[], l, c⟩)
  | ch :: rest, l, c, acc =>
    if isDigit ch then readDigitsAux rest l (c + 1) (acc.push ch)
    else (acc, ⟨ch :: rest, l, c⟩)

/-- The `readDigits` method: consume a maximal digit run. -/
def Lex.readDigits (lex : Lex) : String × Lex :=
  readDigitsAux lex.input lex.lineNo lex.charNo ""

/-- Numeric value of a decimal literal's digit string. -/
def digitsToNat (s : String) : Nat :=
  s.toList.foldl (fun acc c => acc * 10 + (c.toNat - 48)) 0

/-- Rational power of ten (kept in `Nat` so that it evaluates by kernel
reduction). -/
def pow10 (n : Nat) : Rat := ((10 ^ n : Nat) : Rat)

/-- Mathematical value of the accumulated number literal
(sign, integer digits, fraction digits, exponent sign, exponent digits);
the source obtains it with `JSON.parse(buf)`, which rounds it to the
nearest IEEE-754 double — this model keeps it exact. -/
def numValue (neg : Bool) (intDigits fracDigits : String) (expNeg : Bool)
    (expDigits : String) : Rat :=
  let mantissa : Rat :=
    ((digitsToNat intDigits * 10 ^ fracDigits.length + digitsToNat fracDigits : Nat) : Rat)
      / pow10 fracDigits.length
  let ex := digitsToNat expDigits
  let v := if expNeg then mantissa / pow10 ex else mantissa * pow10 ex
  if neg then -v else v

/-- The `numberLiteral` method: strict JSON number grammar with the
source's error messages and positions. -/
def Lex.numberLiteral (lex : Lex) : Except JErr (Rat × Lex) :=
  let l0 := lex.skip
  match l0.peek with
  | none => .error (l0.error "Expected number, got: ")
  | some first =>
    if first ≠ '-' ∧ ¬ isDigit first then
      .error (l0.error ("Expected number, got: " ++ String.singleton first))
    else
      let (neg, l1) := if first = '-' then (true, (l0.next).2) else (false, l0)
      let (digits, l2) := l1.readDigits
      if digits = "" then .error (l2.error "Expected number.")
      else if digits.front = '0' ∧ digits.length > 1 then
        .error (l2.error "Invalid number (leading zeroes.)")
      else
        let fracStep : Except JErr (String × Lex) :=
          match l2.peek with
          | some c =>
            if c = '.' then
              let l3 := (l2.next).2
              let (fr, l4) := l3.readDigits
              if fr = "" then .error (l4.error "Invalid number (empty fraction.)")
              else .ok (fr, l4)
            else .ok ("", l2)
          | none => .ok ("", l2)
        match fracStep with
        | .error e => .error e
        | .ok (fr, l5) =>
          match l5.peek with
          | some e =>
            if e = 'e' ∨ e = 'E' then
              let l6 := (l5.next).2
              let (expNeg, l7) :=
                match l6.peek with
                | some s => if s = '+' ∨ s = '-' then (s == '-', (l6.next).2) else (false, l6)
                | none => (false, l6)
              let (ex, l8) := l7.readDigits
              if ex = "" then .error (l8.error "Invalid number (empty exponent.)")
              else .ok (numValue neg digits fr expNeg ex, l8)
            else .ok (numValue neg digits fr false "", l5)
          | none => .ok (numValue neg digits fr false "", l5)

/-- Character loop of the `stringLiteral` method (after the opening quote
has been consumed).  The source's `this.eof` test inside the loop is
equivalent to `nextChar` having returned the empty string, i.e. the
`none` case here.  Fueled: each iteration consumes at least one
character, so any fuel of at least `input.length + 1` suffices. -/
def strLoop : Nat → String → Lex → Except JErr (String × Lex)
  | 0, _, _ => .error .outOfFuel
  | n + 1, acc, lex =>
    match lex.next with
    | (none, l) => .error (l.error "Expected \" but got EOF.")
    | (some ch, l) =>
      if ch = '"' then .ok (acc, l)
      else if ch = '\\' then
        match l.unescape with
        | .error e => .error e
        | .ok (c, l') => strLoop n (acc.push c) l'
      else strLoop n (acc.push ch) l

/-- The `stringLiteral` method: opening quote (after whitespace), then the
character loop. -/
def Lex.stringLiteral (fuel : Nat) (lex : Lex) : Except JErr (String × Lex) := do
  let l ← lex.skipAndExpect '"'
  strLoop fuel "" l

/-- Sample values (shape witnesses).  The constructors cover the JS
runtime kinds the source's predicates distinguish: primitives, `Date`
objects, `null`, `undefined`, arrays, plain objects, and the `USD` class
instances of the repository's custom-type usage. -/
inductive Sample where
  | bool (b : Bool)
  | num (q : Rat)
  | str (s : String)
  | date (s : String)
  | null
  | undef
  | arr (elems : List Sample)
  | obj (props : List (String × Sample))
  | usd (cents : Rat)

/-- JS `typeof` on a sample (note `typeof null === "object"`). -/
def Sample.typeOf : Sample → String
  | .bool _ => "boolean"
  | .num _ => "number"
  | .str _ => "string"
  | .undef => "undefined"
  | _ => "object"

/-- JS `Object.prototype.toString.call` tag on a sample. -/
def Sample.toStringTag : Sample → String
  | .bool _ => "[object Boolean]"
  | .num _ => "[object Number]"
  | .str _ => "[object String]"
  | .date _ => "[object Date]"
  | .null => "[object Null]"
  | .undef => "[object Undefined]"
  | .arr _ => "[object Array]"
  | .obj _ => "[object Object]"
  | .usd _ => "[object Object]"

/-- JS `Array.isArray` on a sample. -/
def Sample.isArray : Sample → Bool
  | .arr _ => true
  | _ => false

/-- JS `instanceof USD` on a sample (the custom class of the repository's
custom-type usage). -/
def Sample.isUSD : Sample → Bool
  | .usd _ => true
  | _ => false

/-- Enumerable own string keys of a sample used as an object template
(`for (const k in sample)` order for a plain object literal; symbol keys
are never enumerated by `for..in`).  Inherited `Object.prototype` members
(`toString` etc., which the `in` operator would also see) are not
modelled; every key exercised below is a plain data key. -/
def Sample.ownKeys : Sample → List String
  | .obj props => props.map (fun p => p.1)
  | .arr xs => (List.range xs.length).map (fun i => toString i)
  | _ => []

/-- Property lookup on a sample used as an object template
(`template[key]`), consistent with `ownKeys`. -/
def Sample.getOwn : Sample → String → Option Sample
  | .obj props, k => (props.find? (fun p => p.1 == k)).map (fun p => p.2)
  | .arr xs, k => (xs.enum.find? (fun p => toString p.1 == k)).map (fun p => p.2)
  | _, _ => none

/-- Decoded values produced by the parser.  `date s` is the JS `Date`
constructed from the (validated) string `s`; `usd q` is the custom `USD`
class instance wrapping a parsed number. -/
inductive Value where
  | bool (b : Bool)
  | num (q : Rat)
  | str (s : String)
  | date (s : String)
  | arr (elems : List Value)
  | obj (props : List (String × Value))
  | usd (cents : Rat)

/-- Parsed-object accumulator (`this.target`), a JS object modelled as an
insertion-ordered association list.  Assigning an existing key overwrites
in place, as JS property assignment does. -/
def setProp : List (String × Value) → String → Value → List (String × Value)
  | [], k, v => [(k, v)]
  | (k', v') :: rest, k, v =>
    if k' == k then (k, v) :: rest else (k', v') :: setProp rest k v

/-- JS `k in parsed` on the accumulator. -/
def hasProp (t : List (String × Value)) (k : String) : Bool :=
  t.any (fun p => p.1 == k)

/-- Parse behaviours of the registered type handlers, defunctionalized:
the seven built-in handler bodies of the `types` array plus the `USD`
custom handler body used by the repository. -/
inductive PAction where
  | pBool | pNum | pDate | pStr | pArr | pObj | pFail | pUSD
deriving DecidableEq, Repr

/-- A registered type handler (`interface Type`): a priority, a predicate
over samples, and a parse behaviour. -/
structure Ty where
  priority : Int
  isValid : Sample → Bool
  action : PAction

/-- Comparison used to model `types.sort((a, b) => a.priority - b.priority)`
(a stable ascending sort). -/
def tyLE (a b : Ty) : Prop := a.priority ≤ b.priority

instance : DecidableRel tyLE := fun a b => Int.decLe a.priority b.priority

/-- The built-in boolean handler (priority 1,000,000). -/
def boolTy : Ty := ⟨1000000, fun s => s.typeOf == "boolean", .pBool⟩

/-- The built-in number handler (priority 2,000,000). -/
def numTy : Ty := ⟨2000000, fun s => s.typeOf == "number", .pNum⟩

/-- The built-in date handler (priority 10,000,000). -/
def dateTy : Ty := ⟨10000000, fun s => s.toStringTag == "[object Date]", .pDate⟩

/-- The built-in string handler (priority 11,000,000). -/
def strTy : Ty := ⟨11000000, fun s => s.typeOf == "string", .pStr⟩

/-- The built-in array handler (priority 12,000,000). -/
def arrTy : Ty := ⟨12000000, fun s => s.isArray, .pArr⟩

/-- The built-in plain-object handler (priority 13,000,000); its predicate
`typeof(sample) === 'object'` also accepts `null`. -/
def objTy : Ty := ⟨13000000, fun s => s.typeOf == "object", .pObj⟩

/-- The built-in catch-all handler (priority `2**53 - 1`). -/
def failTy : Ty := ⟨9007199254740991, fun _ => true, .pFail⟩

/-- The initial `types` registry, in the source's (ascending) order. -/
def types0 : List Ty := [boolTy, numTy, dateTy, strTy, arrTy, objTy, failTy]

/-- The `USD` custom handler registered by the repository's custom-type
usage (priority 500, predicate `sample instanceof USD`, parse a number
literal and wrap it). -/
def usdTy : Ty := ⟨500, Sample.isUSD, .pUSD⟩

/-- `types.find(x => x.isValid(sample))`: first predicate match in list
order. -/
def findType (types : List Ty) (s : Sample) : Option Ty :=
  types.find? (fun t => t.isValid s)

/-- The `addType` export: push the handler and re-sort ascending by
priority (modelled with a stable insertion sort, as JS `Array.prototype.sort`
is stable). -/
def addType (t : Ty) (types : List Ty) : List Ty :=
  List.insertionSort tyLE (types ++ [t])

/-- Modelled from the spec: the host `new Date(string)` constructor is
outside the repository; the spec only requires that an unparseable date
string fail.  Validity is modelled as an ISO-8601-like `YYYY-MM-DD`
prefix; no claim depends on the precise host date grammar. -/
def jsDateOk (s : String) : Bool :=
  match s.toList with
  | y1 :: y2 :: y3 :: y4 :: '-' :: m1 :: m2 :: '-' :: d1 :: d2 :: _ =>
    isDigit y1 && isDigit y2 && isDigit y3 && isDigit y4 &&
      isDigit m1 && isDigit m2 && isDigit d1 && isDigit d2
  | _ => false

/-- The default completeness checker (`check`): report the first
enumerable own key of the sample that is absent from the parsed result.
The source guards with `typeof(sample[k] !== "function")`, which
evaluates to the truthy string `"boolean"` whatever `sample[k]` is, so
the guard never filters anything; the re-bindable `checkWith` hook is not
modelled (every claim uses the default checker). -/
def checkDefault (lex : Lex) (sample : Sample) (parsed : List (String × Value)) :
    Except JErr Unit :=
  match (sample.ownKeys).find? (fun k => ¬ hasProp parsed k) with
  | some k => .error (lex.error ("Missing required property: " ++ k))
  | none => .ok ()

mutual

/-- Bodies of the registered handlers (the `parse` members of the
`types` array entries, plus the `USD` handler's body). -/
def runAction : Nat → List Ty → PAction → Sample → Lex → Except JErr (Value × Lex)
  | 0, _, _, _, _ => .error .outOfFuel
  | n + 1, types, a, sample, lex =>
    match a with
    | .pBool => (lex.booleanLiteral).map (fun p => (Value.bool p.1, p.2))
    | .pNum => (lex.numberLiteral).map (fun p => (Value.num p.1, p.2))
    | .pDate => do
      let (s, l) ← Lex.stringLiteral (n + 1) lex
      if jsDateOk s then .ok (Value.date s, l)
      else .error (l.error ("Expected date, got " ++ s ++ "."))
    | .pStr => (Lex.stringLiteral (n + 1) lex).map (fun p => (Value.str p.1, p.2))
    | .pArr =>
      match sample with
      | .arr [] => .error (lex.error "No sample element in sample array.")
      | .arr (e :: _) =>
        (lexElements n types e lex).map (fun p => (Value.arr p.1, p.2))
      | _ =>
        -- Only array samples are dispatched here in every registry this
        -- development builds (the built-in predicate is `Array.isArray`).
        .error (.typeError "array handler on a non-array sample (not modelled)")
    | .pObj => objectParse n types sample lex
    | .pFail => .error (.typeError "Unsupported type")
    | .pUSD => (lex.numberLiteral).map (fun p => (Value.usd p.1, p.2))

/-- The `elements` generator method of `Lex`, run to completion: the list
of yielded element values in order, and the state after the closing `]`.
The registry lookup happens once, up front; a failed lookup only
surfaces (as the JS `TypeError`) when the first element is parsed. -/
def lexElements : Nat → List Ty → Sample → Lex → Except JErr (List Value × Lex)
  | 0, _, _, _ => .error .outOfFuel
  | n + 1, types, sample, lex => do
    let t? := findType types sample
    let l ← lex.skipAndExpect '['
    elemLoop n types t? sample [] l

/-- Head of the element loop: test the next non-whitespace character
against `]`, otherwise parse one element. -/
def elemLoop : Nat → List Ty → Option Ty → Sample → List Value → Lex →
    Except JErr (List Value × Lex)
  | 0, _, _, _, _, _ => .error .outOfFuel
  | n + 1, types, t?, sample, acc, lex =>
    let (ch, l) := lex.skipAndPeek
    if ch = some ']' then do
      let l' ← l.expect "]"
      .ok (acc, l')
    else
      match t? with
      | none => .error (.typeError "Cannot read properties of undefined (reading parse)")
      | some t => do
        let (v, l1) ← runAction n types t.action sample l
        elemDelim n types t? sample (acc ++ [v]) l1

/-- Delimiter step after one element: a comma is consumed and the loop
re-entered; a `]` re-enters the loop head (which then terminates);
anything else is the positioned `Expected , or ]` error (no trailing
period in the source's template literal). -/
def elemDelim : Nat → List Ty → Option Ty → Sample → List Value → Lex →
    Except JErr (List Value × Lex)
  | 0, _, _, _, _, _ => .error .outOfFuel
  | n + 1, types, t?, sample, acc, lex =>
    let (d, l) := lex.skipAndPeek
    if d = some ',' then elemLoop n types t? sample acc (l.next).2
    else if d = some ']' then elemLoop n types t? sample acc l
    else .error (l.error ("Expected , or ] but got: " ++ showChEOF d))

/-- The `ObjectParser` in one piece: constructor plus `parse`.  The
constructor's `beforeParse in template` throws a plain `TypeError` when
the template is `null` or `undefined`; no sample in this development
carries the symbol-keyed hook entries, so otherwise the effective
template is the original sample.  After the closing brace, the source
calls `this.lex.skip()` without awaiting it, so it has no observable
effect before the completeness check runs (and every continuation point
skips whitespace again). -/
def objectParse : Nat → List Ty → Sample → Lex → Except JErr (Value × Lex)
  | 0, _, _, _ => .error .outOfFuel
  | n + 1, types, original, lex =>
    match original with
    | .null =>
      .error (.typeError "Cannot use 'in' operator to search for 'Symbol(beforeParse)' in null")
    | .undef =>
      .error (.typeError "Cannot use 'in' operator to search for 'Symbol(beforeParse)' in undefined")
    | _ => do
      let l ← lex.skipAndExpect '\x7b'
      let (target, l1) ← objLoop n types original [] l
      checkDefault l1 original target
      .ok (Value.obj target, l1)

/-- Head of the object-pair loop (`while (ch === '"')`): a quote starts a
key/value pair; anything else leaves the loop, and the closing `\x7d` is
then consumed by `skipAndExpect`. -/
def objLoop : Nat → List Ty → Sample → List (String × Value) → Lex →
    Except JErr (List (String × Value) × Lex)
  | 0, _, _, _, _ => .error .outOfFuel
  | n + 1, types, tmpl, target, lex =>
    let (ch, l) := lex.skipAndPeek
    if ch = some '"' then do
      let (key, l1) ← Lex.stringLiteral (n + 1) l
      let l2 ← l1.skipAndExpect ':'
      let (target', l3) ← addProperty n types tmpl target key l2
      objDelim n types tmpl target' l3
    else do
      let l' ← l.skipAndExpect '\x7d'
      .ok (target, l')

/-- Delimiter step after one pair: a comma is consumed and the loop
re-entered; a closing brace re-enters the loop head (whose `while` test
then fails and consumes the brace); anything else is the positioned
`Expected , or \x7d` error (no trailing period in the source's template
literal). -/
def objDelim : Nat → List Ty → Sample → List (String × Value) → Lex →
    Except JErr (List (String × Value) × Lex)
  | 0, _, _, _, _ => .error .outOfFuel
  | n + 1, types, tmpl, target, lex =>
    let (d, l) := lex.skipAndPeek
    if d = some ',' then objLoop n types tmpl target (l.next).2
    else if d = some '\x7d' then objLoop n types tmpl target l
    else .error (l.error ("Expected , or \x7d but got: " ++ showChEOF d))

/-- The private `addProperty` method: resolve the key against the
template before any whitespace is skipped, then skip, dispatch through
the registry on the property's sample, and store the decoded value. -/
def addProperty : Nat → List Ty → Sample → List (String × Value) → String → Lex →
    Except JErr (List (String × Value) × Lex)
  | 0, _, _, _, _, _ => .error .outOfFuel
  | n + 1, types, tmpl, target, key, lex =>
    match tmpl.getOwn key with
    | none => .error (lex.error ("No such property: " ++ key))
    | some sample =>
      let l := lex.skip
      match findType types sample with
      | none => .error (.typeError "Cannot read properties of undefined (reading parse)")
      | some t => do
        let (v, l1) ← runAction n types t.action sample l
        .ok (setProp target key v, l1)

end

/-- Dispatch through the registry and run the selected handler, as
`parse` (and every recursive site) does with
`types.find(x => x.isValid(sample))!.parse(lex, sample)`.  A `none`
lookup models the JS `TypeError` from calling `.parse` on `undefined`
(unreachable while the catch-all is registered). -/
def parseValue : Nat → List Ty → Sample → Lex → Except JErr (Value × Lex)
  | 0, _, _, _ => .error .outOfFuel
  | n + 1, types, sample, lex =>
    match findType types sample with
    | none => .error (.typeError "Cannot read properties of undefined (reading parse)")
    | some t => runAction n types t.action sample lex

/-- The `parse` entry point on an already-decoded character sequence
(the string/stream normalization and byte decoding are the out-of-scope
capability): dispatch the root handler once, then require only trailing
whitespace. -/
def parseTop (fuel : Nat) (types : List Ty) (sample : Sample) (input : List Char) :
    Except JErr Value :=
  match fuel with
  | 0 => .error .outOfFuel
  | n + 1 =>
    let lex : Lex := ⟨input, 1, 1⟩
    match findType types sample with
    | none => .error (.typeError "Cannot read properties of undefined (reading parse)")
    | some t =>
      match runAction n types t.action sample lex with
      | .error e => .error e
      | .ok (v, l) =>
        let l1 := l.skip
        match l1.peek with
        | some _ => .error (l1.error "Expected one JSON element, got extra data.")
        | none => .ok v

/-- Observable behaviour of one consumer-side run of the top-level
`elements` entry point: the values its returned generator yields, and
the run of the inner `Lex.elements` sequence that the body produces. -/
structure ElementsGen where
  outerYields : List Value
  innerRun : Except JErr (List Value × Lex)

/-- The top-level `elements` entry point.  The source declares it
`async function*` but its body only `return`s `lex.elements(...)`: the
generator it hands back yields no values at all and finishes at once,
carrying the inner element sequence only as its terminal return value
(a `yield*` would have been needed to forward the yields). -/
def elementsEntry (fuel : Nat) (types : List Ty) (sample : Sample)
    (input : List Char) : ElementsGen :=
  { outerYields := []
    innerRun := lexElements fuel types sample ⟨input, 1, 1⟩ }

/-- Error projection of a parse result (used to state facts about error
outcomes in a decidable type). -/
def errOf : Except JErr Value → Option JErr
  | .error e => some e
  | .ok _ => none

/-- The object sample `\x7b s: "" \x7d` used by several claims. -/
def sampleS : Sample := .obj [("s", .str "")]

/-- The input `\x7b"p":"v"\x7d`. -/
def inputPV : List Char := ['\x7b', '"', 'p', '"', ':', '"', 'v', '"', '\x7d']

/-- The input `\x7b\x7d`. -/
def inputEmptyObj : List Char := ['\x7b', '\x7d']

/-!
Claim theorems.
-/

/-- Claim C1 (code evaluated at the failing input): the top-level
streaming entry point `elements`, applied to element-sample `0` and the
input `[11,22,33,44]`, hands back a generator that yields NO values at
all (its `async function*` body only `return`s the inner `Lex.elements`
sequence instead of `yield*`-ing it); the element values 11, 22, 33, 44
are produced, in order and with nothing after them, only by the inner
sequence that is stranded in the generator's terminal return value.  The
spec's claim that consuming `elements`' result yields 11, 22, 33, 44 is
therefore a bug in the code, not in the spec's intent. -/
theorem c1_elements_entry_yields_nothing :
    (elementsEntry 100 types0 (Sample.num 0) "[11,22,33,44]".toList).outerYields = []
    ∧ (elementsEntry 100 types0 (Sample.num 0) "[11,22,33,44]".toList).innerRun =
      .ok ([Value.num 11, Value.num 22, Value.num 33, Value.num 44], ⟨[], 1, 14⟩) :=
  ⟨rfl, rfl⟩

/-- Claim C5 (counterexample): `numberLiteral` on `"003"` does fail with
"Invalid number (leading zeroes.)", but at line 1, character 4 — the
position after the whole digit run has been consumed — not at the
position of the third character (line 1, character 3) as claimed. -/
theorem c5_position_counterexample :
    Lex.numberLiteral ⟨"003".toList, 1, 1⟩ =
      .error (.syn 1 4 "Invalid number (leading zeroes.)")
    ∧ Lex.numberLiteral ⟨"003".toList, 1, 1⟩ ≠
      .error (.syn 1 3 "Invalid number (leading zeroes.)") := by
  constructor
  · rfl
  · decide

/-- Claim C5 (amended): `numberLiteral` on input `"003"` fails with
"Invalid number (leading zeroes.)" reported at line 1, character 4 (the
position immediately after the consumed digits), while the input `"0"`
alone is a valid number token returning 0. -/
theorem c5_leading_zeroes :
    Lex.numberLiteral ⟨"003".toList, 1, 1⟩ =
      .error (.syn 1 4 "Invalid number (leading zeroes.)")
    ∧ Lex.numberLiteral ⟨"0".toList, 1, 1⟩ = .ok (0, ⟨[], 1, 2⟩) :=
  ⟨rfl, rfl⟩

/-- Claim C6 (counterexample): parsing `\x7b"p":"v"\x7d` against sample
`\x7b s: "" \x7d` fails with "No such property: p", but the reported
position is line 1, character 6 — immediately after the colon following
the key has been consumed — not character 5, the position immediately
after the key string's closing quote as claimed. -/
theorem c6_position_counterexample :
    errOf (parseTop 100 types0 sampleS inputPV) = some (.syn 1 6 "No such property: p")
    ∧ errOf (parseTop 100 types0 sampleS inputPV) ≠
      some (.syn 1 5 "No such property: p") := by
  constructor
  · rfl
  · decide

/-- Claim C6 (amended): parsing input `\x7b"p":"v"\x7d` against sample
`\x7b s: "" \x7d` fails with message "No such property: p", with the
reported position immediately after the colon that follows the offending
key (line 1, character 6 for this input): `addProperty` rejects the key
only after `skipAndExpect(":")` has consumed the colon. -/
theorem c6_no_such_property :
    parseTop 100 types0 sampleS inputPV = .error (.syn 1 6 "No such property: p") :=
  rfl

/-- Claim C8 (confirmed): parsing input `\x7b\x7d` against sample
`\x7b s: "" \x7d` fails with message "Missing required property: s",
reported at line 1, character 3 — the position of the character
immediately after the closing brace (both brace characters having been
consumed, and the unawaited `this.lex.skip()` having no observable
effect before the completeness check runs). -/
theorem c8_missing_required_property :
    parseTop 100 types0 sampleS inputEmptyObj =
      .error (.syn 1 3 "Missing required property: s") :=
  rfl

/-- Claim C7 (confirmed): whenever the sample for an array-typed value is
the empty array, dispatch selects the built-in array handler and parsing
fails with "No sample element in sample array." at the current position,
whatever the remaining input is — the failure happens before any input
character is consumed for that value (the error carries the unchanged
line/character position of the incoming state). -/
theorem c7_empty_sample_array (n : Nat) (lex : Lex) :
    parseValue (n + 2) types0 (Sample.arr []) lex =
      .error (.syn lex.lineNo lex.charNo "No sample element in sample array.") := by
  have h : findType types0 (Sample.arr []) = some arrTy := rfl
  simp [parseValue, h, runAction, arrTy, Lex.error]

/-- Claim C10 (confirmed): for sample `null`, registry lookup selects the
built-in plain-object handler (its predicate `typeof(sample) === 'object'`
accepts `null`, so the catch-all is never consulted), and `parse` then
fails — for every input, before reading any of it — with the plain,
unpositioned `TypeError` raised by the `ObjectParser` constructor when it
evaluates `beforeParse in null`, not with a positioned syntax error and
not with the catch-all's "Unsupported type" error. -/
theorem c10_null_sample_type_error (n : Nat) (input : List Char) :
    findType types0 Sample.null = some objTy ∧
    parseTop (n + 3) types0 Sample.null input =
      .error (.typeError
        "Cannot use 'in' operator to search for 'Symbol(beforeParse)' in null") := by
  refine ⟨rfl, ?_⟩
  have h : findType types0 Sample.null = some objTy := rfl
  simp [parseTop, h, runAction, objTy, objectParse]

/-- A stable ascending sort of a sorted registry with one appended
handler that sits strictly below every registered one puts the new
handler first and keeps the rest in order. -/
theorem insertionSort_append_low (l : List Ty) (c : Ty)
    (hall : ∀ b ∈ l, ¬ tyLE b c) (hsort : List.Sorted tyLE l) :
    List.insertionSort tyLE (l ++ [c]) = c :: l := by
  induction l with
  | nil => simp [List.insertionSort, List.orderedInsert]
  | cons b t ih =>
    have hb : ¬ tyLE b c := hall b (List.mem_cons_self b t)
    have ht : List.insertionSort tyLE (t ++ [c]) = c :: t :=
      ih (fun x hx => hall x (List.mem_cons_of_mem b hx)) (List.sorted_cons.mp hsort).2
    rw [List.cons_append, List.insertionSort, ht, List.orderedInsert, if_neg hb]
    cases t with
    | nil => rfl
    | cons x t' =>
      have hbx : tyLE b x := (List.sorted_cons.mp hsort).1 x (List.mem_cons_self x t')
      rw [List.orderedInsert, if_pos hbx]

/-- The built-in registry is sorted ascending by priority. -/
theorem types0_sorted : List.Sorted tyLE types0 := by
  decide

/-- Registering a handler whose priority is below the boolean handler's
1,000,000 (the least built-in priority) places it ahead of every
built-in. -/
theorem addType_below_builtins (c : Ty) (h : c.priority < 1000000) :
    addType c types0 = c :: types0 := by
  refine insertionSort_append_low types0 c ?_ types0_sorted
  intro b hb
  simp [types0] at hb
  rcases hb with hb | hb | hb | hb | hb | hb | hb <;>
    (subst hb
     simp [tyLE, boolTy, numTy, dateTy, strTy, arrTy, objTy, failTy]
     omega)

/-- Claim C3 (confirmed): after `addType` registers a custom handler with
a priority lower than the built-in boolean handler's 1,000,000 (the
lowest built-in priority), registry lookup on any sample accepted by the
custom handler's predicate selects the custom handler — even when a
built-in predicate would also accept the sample — and dispatch therefore
runs the custom handler's parse behaviour. -/
theorem c3_custom_handler_preempts (c : Ty) (s : Sample)
    (hp : c.priority < 1000000) (hv : c.isValid s = true) :
    findType (addType c types0) s = some c ∧
    ∀ (n : Nat) (lex : Lex),
      parseValue (n + 1) (addType c types0) s lex =
        runAction n (addType c types0) c.action s lex := by
  have hreg : addType c types0 = c :: types0 := addType_below_builtins c hp
  have hfind : findType (addType c types0) s = some c := by
    rw [hreg]
    simp [findType, List.find?, hv]
  exact ⟨hfind, fun n lex => by simp [parseValue, hfind]⟩

/-- Witness for C3: the repository's `USD` handler (priority 500)
pre-empts the built-ins on a `USD` sample — in particular the built-in
plain-object predicate would also accept it. -/
theorem c3_custom_handler_preempts_witness :
    ((500 : Int) < 1000000 ∧ usdTy.isValid (Sample.usd 0) = true) ∧
    findType (addType usdTy types0) (Sample.usd 0) = some usdTy ∧
    parseValue 5 (addType usdTy types0) (Sample.usd 0) ⟨"1000".toList, 1, 1⟩ =
      runAction 4 (addType usdTy types0) PAction.pUSD (Sample.usd 0) ⟨"1000".toList, 1, 1⟩ := by
  refine ⟨⟨by decide, rfl⟩,
    (c3_custom_handler_preempts usdTy (Sample.usd 0) (by decide) rfl).1, ?_⟩
  exact (c3_custom_handler_preempts usdTy (Sample.usd 0) (by decide) rfl).2 4 ⟨"1000".toList, 1, 1⟩

/-- A character with a hex-digit value is not a newline. -/
theorem hexDigit_ne_newline {ch : Char} {a : Nat} (h : hexDigit? ch = some a) :
    ¬ (ch = '\n') := by
  intro he
  subst he
  simp [hexDigit?] at h

/-- Claim C4 (counterexample): `\/` is NOT a recognized escape — the
source's `unescape` has no `/` case, so escaping a slash falls to the
default branch and fails with the positioned "Invalid escaped character."
error instead of decoding to `/`. -/
theorem c4_slash_escape_rejected :
    Lex.stringLiteral 10 ⟨['"', '\\', '/', '"'], 1, 1⟩ =
      .error (.syn 1 4 "Invalid escaped character.") :=
  rfl

/-- Claim C4 (amended): in `stringLiteral`, a backslash introduces an
escape whose recognized forms are exactly the characters
`" \ b f n r t` — without `/` — and `uXXXX` with exactly four hex digits:
each of the seven single-character escapes decodes to its corresponding
character, `\uXXXX` decodes to the corresponding code point (stated here
for Unicode scalar values, the code points this model's strings can
carry), and any other escaped character fails with the positioned error
"Invalid escaped character." -/
theorem c4_escape_forms :
    (∀ (e d : Char),
      (e, d) ∈ [('"', '"'), ('\\', '\\'), ('b', '\x08'), ('f', '\x0C'),
        ('n', '\n'), ('r', '\r'), ('t', '\t')] →
      ∀ (n : Nat) (rest : List Char) (l c : Nat),
        Lex.stringLiteral (n + 2) ⟨'"' :: '\\' :: e :: '"' :: rest, l, c⟩ =
          .ok (String.singleton d, ⟨rest, l, c + 4⟩)) ∧
    (∀ (h1 h2 h3 h4 : Char) (a b cc dd : Nat),
      hexDigit? h1 = some a → hexDigit? h2 = some b →
      hexDigit? h3 = some cc → hexDigit? h4 = some dd →
      (((a * 16 + b) * 16 + cc) * 16 + dd).isValidChar →
      ∀ (n : Nat) (rest : List Char) (l c : Nat),
        Lex.stringLiteral (n + 2)
            ⟨'"' :: '\\' :: 'u' :: h1 :: h2 :: h3 :: h4 :: '"' :: rest, l, c⟩ =
          .ok (String.singleton (Char.ofNat (((a * 16 + b) * 16 + cc) * 16 + dd)),
            ⟨rest, l, c + 8⟩)) ∧
    (∀ (e : Char), e ∉ ['"', '\\', 'b', 'f', 'n', 'r', 't', 'u'] →
      ∀ (n : Nat) (rest : List Char) (l c : Nat), ∃ l2 c2,
        Lex.stringLiteral (n + 2) ⟨'"' :: '\\' :: e :: rest, l, c⟩ =
          .error (.syn l2 c2 "Invalid escaped character.")) := by
  refine ⟨?_, ?_, ?_⟩
  · intro e d hmem n rest l c
    simp only [List.mem_cons, List.not_mem_nil, or_false, Prod.mk.injEq] at hmem
    rcases hmem with ⟨rfl, rfl⟩ | ⟨rfl, rfl⟩ | ⟨rfl, rfl⟩ | ⟨rfl, rfl⟩ | ⟨rfl, rfl⟩ |
      ⟨rfl, rfl⟩ | ⟨rfl, rfl⟩ <;> rfl
  · intro h1 h2 h3 h4 a b cc dd ha hb hc hd hval n rest l c
    have e1 := hexDigit_ne_newline ha
    have e2 := hexDigit_ne_newline hb
    have e3 := hexDigit_ne_newline hc
    have e4 := hexDigit_ne_newline hd
    simp [Lex.stringLiteral, Lex.skipAndExpect, Lex.skip, skipAux, Lex.next, isWhite,
      strLoop, Lex.unescape, Lex.mustChar, ha, hb, hc, hd, e1, e2, e3, e4, hval,
      Bind.bind, Except.bind, String.singleton, String.push]
  · intro e hmem n rest l c
    simp only [List.mem_cons, List.not_mem_nil, or_false, not_or] at hmem
    obtain ⟨q1, q2, q3, q4, q5, q6, q7, q8⟩ := hmem
    by_cases he : e = '\n'
    · refine ⟨l + 1, 1, ?_⟩
      subst he
      simp [Lex.stringLiteral, Lex.skipAndExpect, Lex.skip, skipAux, Lex.next, isWhite,
        strLoop, Lex.unescape, Lex.mustChar, q1, q2, q3, q4, q5, q6, q7, q8, Lex.error,
        Bind.bind, Except.bind]
    · refine ⟨l, c + 3, ?_⟩
      simp [Lex.stringLiteral, Lex.skipAndExpect, Lex.skip, skipAux, Lex.next, isWhite,
        strLoop, Lex.unescape, Lex.mustChar, q1, q2, q3, q4, q5, q6, q7, q8, he, Lex.error,
        Bind.bind, Except.bind]

/-- Witness for C4: `\n` decodes to a newline, `ᄑ` decodes to code
point 4369, and the unrecognized escape `\0` (from the repository's own
test) fails with "Invalid escaped character." -/
theorem c4_escape_forms_witness :
    Lex.stringLiteral 2 ⟨['"', '\\', 'n', '"'], 1, 1⟩ =
      .ok (String.singleton '\n', ⟨[], 1, 5⟩) ∧
    Lex.stringLiteral 2 ⟨['"', '\\', 'u', '1', '1', '1', '1', '"'], 1, 1⟩ =
      .ok (String.singleton (Char.ofNat (((1 * 16 + 1) * 16 + 1) * 16 + 1)), ⟨[], 1, 9⟩) ∧
    ∃ l2 c2, Lex.stringLiteral 2 ⟨['"', '\\', '0', '"'], 1, 1⟩ =
      .error (.syn l2 c2 "Invalid escaped character.") := by
  refine ⟨c4_escape_forms.1 'n' '\n' (by simp) 0 [] 1 1, ?_, ?_⟩
  · exact c4_escape_forms.2.1 '1' '1' '1' '1' 1 1 1 1 rfl rfl rfl rfl (by decide) 0 [] 1 1
  · exact c4_escape_forms.2.2 '0' (by decide) 0 ['"'] 1 1

/-- Skipping whitespace walks over any all-whitespace prefix and stops at
the first non-whitespace character, leaving it and everything after it
unconsumed (at some position). -/
theorem skipAux_whites (W : List Char) (hW : ∀ a ∈ W, isWhite a = true) (x : Char)
    (hx : isWhite x = false) (xs : List Char) :
    ∀ (l c : Nat), ∃ l2 c2, skipAux (W ++ x :: xs) l c = ⟨x :: xs, l2, c2⟩ := by
  induction W with
  | nil => intro l c; exact ⟨l, c, by simp [skipAux, hx]⟩
  | cons a t ih =>
    intro l c
    have ha := hW a (List.mem_cons_self a t)
    have ih' := ih (fun b hb => hW b (List.mem_cons_of_mem a hb))
    by_cases han : a = '\n'
    · obtain ⟨l2, c2, h⟩ := ih' (l + 1) 1
      subst han
      exact ⟨l2, c2, by simp [skipAux, ha, h]⟩
    · obtain ⟨l2, c2, h⟩ := ih' l (c + 1)
      exact ⟨l2, c2, by simp [skipAux, ha, han, h]⟩

/-- The input `\x7b"s":"v"\x7d`. -/
def inputSV : List Char := ['\x7b', '"', 's', '"', ':', '"', 'v', '"', '\x7d']

/-- The input `\x7b"s":"v",\x7d` (trailing comma). -/
def inputSVComma : List Char := ['\x7b', '"', 's', '"', ':', '"', 'v', '"', ',', '\x7d']

/-- Claim C9 (confirmed): a trailing comma before the closing delimiter is
accepted.  In general form, at the point where the two inputs diverge —
the delimiter step right after the last key/value pair (resp. last
element) — a comma followed by whitespace and the closing delimiter
produces exactly the same decoded value and the same remaining input as
the whitespace and closing delimiter alone, for every registry, template,
accumulated result, whitespace run, input continuation and position
(positions inside may differ, which on success is unobservable in the
value).  In concrete form, whole parses of `\x7b"s":"v",\x7d` versus
`\x7b"s":"v"\x7d` and of `[1,2,]` versus `[1,2]` succeed with identical
values. -/
theorem c9_trailing_comma :
    (∀ (n : Nat) (types : List Ty) (tmpl : Sample) (target : List (String × Value))
        (W B : List Char) (l c : Nat), (∀ a ∈ W, isWhite a = true) →
      (∃ l2 c2, objDelim (n + 2) types tmpl target ⟨',' :: (W ++ '\x7d' :: B), l, c⟩ =
        .ok (target, ⟨B, l2, c2⟩)) ∧
      (∃ l2 c2, objDelim (n + 2) types tmpl target ⟨W ++ '\x7d' :: B, l, c⟩ =
        .ok (target, ⟨B, l2, c2⟩))) ∧
    (∀ (n : Nat) (types : List Ty) (t? : Option Ty) (sample : Sample) (acc : List Value)
        (W B : List Char) (l c : Nat), (∀ a ∈ W, isWhite a = true) →
      (∃ l2 c2, elemDelim (n + 2) types t? sample acc ⟨',' :: (W ++ ']' :: B), l, c⟩ =
        .ok (acc, ⟨B, l2, c2⟩)) ∧
      (∃ l2 c2, elemDelim (n + 2) types t? sample acc ⟨W ++ ']' :: B, l, c⟩ =
        .ok (acc, ⟨B, l2, c2⟩))) ∧
    (parseTop 100 types0 sampleS inputSVComma = parseTop 100 types0 sampleS inputSV ∧
      parseTop 100 types0 sampleS inputSV = .ok (Value.obj [("s", Value.str "v")])) ∧
    (parseTop 100 types0 (Sample.arr [Sample.num 0]) "[1,2,]".toList =
        parseTop 100 types0 (Sample.arr [Sample.num 0]) "[1,2]".toList ∧
      parseTop 100 types0 (Sample.arr [Sample.num 0]) "[1,2]".toList =
        .ok (Value.arr [Value.num 1, Value.num 2])) := by
  refine ⟨?_, ?_, ⟨rfl, rfl⟩, ⟨rfl, rfl⟩⟩
  · intro n types tmpl target W B l c hW
    constructor
    · obtain ⟨l2, c2, hsk⟩ := skipAux_whites W hW '\x7d' (by decide) B l (c + 1)
      refine ⟨l2, c2 + 1, ?_⟩
      simp [objDelim, Lex.skipAndPeek, Lex.skip, skipAux, isWhite, Lex.peek, Lex.next,
        objLoop, hsk, Lex.skipAndExpect, Bind.bind, Except.bind]
    · obtain ⟨l2, c2, hsk⟩ := skipAux_whites W hW '\x7d' (by decide) B l c
      refine ⟨l2, c2 + 1, ?_⟩
      simp [objDelim, Lex.skipAndPeek, Lex.skip, skipAux, isWhite, Lex.peek, Lex.next,
        objLoop, hsk, Lex.skipAndExpect, Bind.bind, Except.bind]
  · intro n types t? sample acc W B l c hW
    constructor
    · obtain ⟨l2, c2, hsk⟩ := skipAux_whites W hW ']' (by decide) B l (c + 1)
      refine ⟨l2, c2 + 1, ?_⟩
      simp [elemDelim, Lex.skipAndPeek, Lex.skip, skipAux, isWhite, Lex.peek, Lex.next,
        elemLoop, hsk, Lex.expect, expectList, Bind.bind, Except.bind]
    · obtain ⟨l2, c2, hsk⟩ := skipAux_whites W hW ']' (by decide) B l c
      refine ⟨l2, c2 + 1, ?_⟩
      simp [elemDelim, Lex.skipAndPeek, Lex.skip, skipAux, isWhite, Lex.peek, Lex.next,
        elemLoop, hsk, Lex.expect, expectList, Bind.bind, Except.bind]

/-- Witness for C9: the delimiter step after the pair `"s":"v"` accepts
`, \x7d` and `\x7d` alike with the same result, and likewise for `,]`
after the elements `1, 2`. -/
theorem c9_trailing_comma_witness :
    ((∃ l2 c2, objDelim 2 types0 sampleS [("s", Value.str "v")]
        ⟨[',', ' ', '\x7d'], 1, 9⟩ = .ok ([("s", Value.str "v")], ⟨[], l2, c2⟩)) ∧
      (∃ l2 c2, objDelim 2 types0 sampleS [("s", Value.str "v")]
        ⟨[' ', '\x7d'], 1, 9⟩ = .ok ([("s", Value.str "v")], ⟨[], l2, c2⟩))) ∧
    ((∃ l2 c2, elemDelim 2 types0 (some numTy) (Sample.num 0) [Value.num 1, Value.num 2]
        ⟨[',', ']'], 1, 5⟩ = .ok ([Value.num 1, Value.num 2], ⟨[], l2, c2⟩)) ∧
      (∃ l2 c2, elemDelim 2 types0 (some numTy) (Sample.num 0) [Value.num 1, Value.num 2]
        ⟨[']'], 1, 5⟩ = .ok ([Value.num 1, Value.num 2], ⟨[], l2, c2⟩))) := by
  exact ⟨c9_trailing_comma.1 0 types0 sampleS [("s", Value.str "v")] [' '] [] 1 9
      (by decide),
    c9_trailing_comma.2.1 0 types0 (some numTy) (Sample.num 0)
      [Value.num 1, Value.num 2] [] [] 1 5 (by decide)⟩

end TJ
